import Mathlib

/-!
Verification of the CSV import engine of `ImportCsvDialog.cpp` (sqlitebrowser).

The pure logic of the dialog is embedded shallowly:
* `generateFieldList` models `ImportCsvDialog::generateFieldList` (schema inference
  over the first 20 parsed rows);
* `matchingHeader` / `matchSimilarMark` model the header comparison and the
  check-state marking performed by `ImportCsvDialog::matchSimilar`;
* `deriveNullValues`, `bindValue`, `bindRow` model the null-value policy and the
  per-row binding loop of `ImportCsvDialog::importCsv`;
* `rollback` models the anonymous-namespace `rollback` helper (message box, then
  `revertToSavepoint`);
* `importCsv` models `ImportCsvDialog::importCsv` as a function from a run
  configuration, a store state and the parsed rows to a trace of store/UI events,
  the final store state and the parser result of the full-file pass.

GUI-only concerns (cursors, preview widgets, settings, colors) are not modelled.
-/

namespace CsvImport

/-- A field of the inferred schema, `sqlb::Field` restricted to what the import
code reads: the name and the (always empty here) type string. -/
structure Field where
  name : String
  type : String
deriving Repr, DecidableEq

/-- A column of an existing table, restricted to what `importCsv` reads from
`sqlb::Field` of the target table: `isInteger()` and `notnull()`. -/
structure Column where
  isInteger : Bool
  notnull : Bool
deriving Repr, DecidableEq

/-- A table in the store: its column metadata and its rows.  A stored row is a
list of bound values, `none` standing for SQL NULL. -/
structure DBTable where
  cols : List Column
  rows : List (List (Option String))
deriving Repr, DecidableEq

/-- The relational store: a finite association of table names to tables. -/
structure DBState where
  tables : List (String × DBTable)
deriving Repr, DecidableEq

/-- `DBBrowserDB::getObjectByName` restricted to tables. -/
def DBState.getObject (db : DBState) (name : String) : Option DBTable :=
  (db.tables.find? fun p => p.1 == name).map Prod.snd

/-- Effect of a successful `DBBrowserDB::createTable`: a fresh empty table whose
columns come from the inferred field list (inference leaves types empty, so the
new columns carry no integer/notnull flags). -/
def DBState.createTable (db : DBState) (name : String) (fields : List Field) : DBState :=
  ⟨db.tables ++ [(name, ⟨fields.map fun _ => ⟨false, false⟩, []⟩)]⟩

/-- Effect of a successful `sqlite3_step` on the prepared INSERT: append the
bound row to the target table. -/
def DBState.insertRow (db : DBState) (name : String) (vals : List (Option String)) : DBState :=
  ⟨db.tables.map fun p => if p.1 == name then (p.1, ⟨p.2.cols, p.2.rows ++ [vals]⟩) else p⟩

/-- The characters removed from a header cell before it may become a field
name: backtick, space, double quote, single quote, comma, semicolon
(`fieldname.replace(...)` chain, lines 357-362). -/
def invalidFieldNameChars : List Char :=
  [Char.ofNat 96, ' ', Char.ofNat 34, Char.ofNat 39, ',', ';']

/-- The `replace(..., "")` chain of `generateFieldList`: every occurrence of
each invalid character is removed. -/
def stripInvalidChars (s : String) : String :=
  String.mk (s.data.filter fun c => !(invalidFieldNameChars.contains c))

/-- The name chosen for the new column at index `i` (0-based) when row
`rowNum` extends the field list, lines 350-367: a stripped header cell when
this is row 0 and the first row is used as header, otherwise (or when the
stripped cell is empty) the synthesized name `field<i+1>`. -/
def fieldNameAt (useHeader : Bool) (rowNum : Nat) (data : List String) (i : Nat) : String :=
  let fieldname :=
    if rowNum = 0 ∧ useHeader = true then stripInvalidChars (data.getD i "") else ""
  if fieldname.isEmpty then "field" ++ toString (i + 1) else fieldname

/-- One iteration of the row callback of `generateFieldList`, lines 346-377:
the loop `for(int i=fieldList.size(); i<data.size(); i++)` appends one field
per column index not yet covered. -/
def extendFieldList (useHeader : Bool) (rowNum : Nat) (fl : List Field)
    (data : List String) : List Field :=
  fl ++ (((List.range data.length).drop fl.length).map
    fun i => ⟨fieldNameAt useHeader rowNum data i, ""⟩)

/-- The sampled rows are consumed in order with an increasing row number,
mirroring the parser driving the callback of `generateFieldList`. -/
def inferRows (useHeader : Bool) : Nat → List Field → List (List String) → List Field
  | _, fl, [] => fl
  | rowNum, fl, data :: rest =>
      inferRows useHeader (rowNum + 1) (extendFieldList useHeader rowNum fl data) rest

/-- `ImportCsvDialog::generateFieldList`: schema inference over the first 20
rows of the file (`parseCSV(..., 20)`), starting from an empty field list. -/
def generateFieldList (useHeader : Bool) (rows : List (List String)) : List Field :=
  inferRows useHeader 0 [] (rows.take 20)

/-- The header comparison of `ImportCsvDialog::matchSimilar`, lines 302-307:
equal count and `std::equal` on the field names. -/
def matchingHeader (selectedHeader header : List Field) : Bool :=
  if selectedHeader.length = header.length then
    (List.zip selectedHeader header).all fun p => p.1.name == p.2.name
  else false

/-- The possible check states of a file item in the batch picker. -/
inductive CheckState where
  | checked
  | unchecked
deriving Repr, DecidableEq

/-- The check-state update `matchSimilar` applies to one candidate file item
(lines 302-317): on equal column count, a name match sets `Checked` and a name
mismatch leaves the state untouched; on differing column count the item is set
to `Unchecked`. -/
def matchSimilarMark (selectedHeader header : List Field) (prev : CheckState) : CheckState :=
  if selectedHeader.length = header.length then
    if (List.zip selectedHeader header).all (fun p => p.1.name == p.2.name) then
      CheckState.checked
    else prev
  else CheckState.unchecked

/-- The null-value policy built for an existing target table, lines 452-460:
integer NOT NULL columns map empty fields to the literal "0", nullable integer
columns map them to SQL NULL (`QString()`, modelled as `none`), every other
column maps them to an empty string literal. -/
def deriveNullValues (cols : List Column) : List (Option String) :=
  cols.map fun f =>
    if f.isInteger = true ∧ f.notnull = true then some "0"
    else if f.isInteger = true ∧ f.notnull = false then none
    else some ""

/-- The value bound for CSV field `i` of a row, lines 493-504: an empty field
of an append-into-existing run with a policy entry at `i` is bound to the
policy value (`none` meaning the binding is skipped and stays NULL); every
other field is bound as its raw text. -/
def bindValue (importToExistingTable : Bool) (nullValues : List (Option String))
    (data : List String) (i : Nat) : Option String :=
  if importToExistingTable = true ∧ data.getD i "" = "" ∧ i < nullValues.length then
    nullValues.getD i none
  else
    some (data.getD i "")

/-- The effective row stored by one execution of the prepared INSERT with
`nCols` placeholders: positions beyond the row's width stay NULL (the
statement's bindings were cleared), positions beyond the placeholder count are
dropped (`sqlite3_bind_text` out of range has no effect). -/
def bindRow (importToExistingTable : Bool) (nullValues : List (Option String))
    (nCols : Nat) (data : List String) : List (Option String) :=
  (List.range nCols).map fun i =>
    if i < data.length then bindValue importToExistingTable nullValues data i else none

/-- Observable events of one import run: store calls and user-visible warnings,
in the order the code issues them. -/
inductive Ev where
  | warnMismatch
  | setSavepoint (name : String) (ok : Bool)
  | createTable (name : String) (ok : Bool)
  | insert (rowNum : Nat) (values : List (Option String)) (ok : Bool)
  | warnUser (record : Option Nat) (message : String)
  | revert (name : String)
deriving Repr, DecidableEq

/-- Modelled from the spec: `CSVParser::ParserResult` (csvparser.h/.cpp are not
part of the sources at hand).  Per the spec a full parse driving a progress
sink ends in `Cancelled` when the sink reports cancellation, in a file-level
failure when the row callback aborts the row loop (a failed insert), and in
`Success` otherwise. -/
inductive ParserResult where
  | success
  | cancelled
  | error
deriving Repr, DecidableEq

/-- The configuration of one `importCsv` run: dialog options, the user's answer
to the existing-table question, the store's reaction to savepoint and table
creation, which row inserts succeed, and the progress-sink cancellation point
(`some k` = the sink reports cancellation at the checkpoint before row `k`). -/
structure RunConfig where
  useHeader : Bool
  userConfirms : Bool
  spName : String
  savepointOk : Bool
  createOk : Bool
  stepOk : Nat → Bool
  cancelAt : Option Nat

def msgRestoreFailed : String := "Creating restore point failed"

def msgCreateFailed : String := "Creating the table failed"

def msgInsertFailed : String := "Inserting row failed"

/-- The anonymous-namespace `rollback` helper, lines 84-101: when the message
is non-empty a warning is shown first — mentioning the record number only when
`nRecord` is non-zero — and only then is `revertToSavepoint` called. -/
def rollback (savepointName : String) (nRecord : Nat) (message : String) : List Ev :=
  (if message = "" then []
   else [Ev.warnUser (if nRecord = 0 then none else some nRecord) message])
  ++ [Ev.revert savepointName]

/-- Result of the full-file row loop: the store after the executed inserts, the
insert events, the last row number seen by the callback (`lastRowNum`) and the
parser result. -/
structure LoopOut where
  db : DBState
  events : List Ev
  lastRowNum : Nat
  result : ParserResult
deriving Repr, DecidableEq

/-- The row callback of `importCsv` (lines 475-521) driven by the full-file
parse.  Per row: a progress checkpoint may cancel; `lastRowNum` records the
callback's row; row 0 is skipped when the first row is the header; otherwise
the row is bound (`bindRow`) and the insert executed — a failed `sqlite3_step`
makes the callback return false, which is a file-level parse failure. -/
def importRowLoop (cfg : RunConfig) (tableName : String) (importToExistingTable : Bool)
    (nullValues : List (Option String)) (nCols : Nat) :
    List (List String) → Nat → Nat → DBState → LoopOut
  | [], _, lastRowNum, db => ⟨db, [], lastRowNum, ParserResult.success⟩
  | data :: rest, rowNum, lastRowNum, db =>
    if cfg.cancelAt = some rowNum then
      ⟨db, [], lastRowNum, ParserResult.cancelled⟩
    else
      if rowNum = 0 ∧ cfg.useHeader = true then
        importRowLoop cfg tableName importToExistingTable nullValues nCols
          rest (rowNum + 1) rowNum db
      else
        let vals := bindRow importToExistingTable nullValues nCols data
        if cfg.stepOk rowNum then
          let out := importRowLoop cfg tableName importToExistingTable nullValues nCols
            rest (rowNum + 1) rowNum (db.insertRow tableName vals)
          ⟨out.db, Ev.insert rowNum vals true :: out.events, out.lastRowNum, out.result⟩
        else
          ⟨db, [Ev.insert rowNum vals false], rowNum, ParserResult.error⟩

/-- The result dispatch at the end of `importCsv` (lines 523-537): `db` is the
store as it was at the savepoint.  `Cancelled` rolls back silently; any other
non-success result rolls back with the `Inserting row failed` message carrying
`lastRowNum`; success leaves the inserted rows in place.  A revert restores
the store to its state at the savepoint. -/
def importRunFinish (cfg : RunConfig) (db : DBState) (createEvs : List Ev) (out : LoopOut) :
    List Ev × DBState × Option ParserResult :=
  match out.result with
  | ParserResult.success =>
      (Ev.setSavepoint cfg.spName true :: createEvs ++ out.events, out.db,
        some ParserResult.success)
  | ParserResult.cancelled =>
      (Ev.setSavepoint cfg.spName true :: createEvs ++ out.events ++
        rollback cfg.spName 0 "", db, some ParserResult.cancelled)
  | ParserResult.error =>
      (Ev.setSavepoint cfg.spName true :: createEvs ++ out.events ++
        rollback cfg.spName out.lastRowNum msgInsertFailed, db, some ParserResult.error)

/-- `importCsv` from the savepoint on (lines 432-537): create the savepoint
(failure goes through `rollback` with record 0), create the table when not
appending (failure likewise), run the row loop and dispatch on the parser
result.  A revert to the never-created savepoint leaves the store unchanged. -/
def importRun (cfg : RunConfig) (tableName : String) (db : DBState)
    (rows : List (List String)) (fieldList : List Field)
    (importToExistingTable : Bool) (nullValues : List (Option String)) :
    List Ev × DBState × Option ParserResult :=
  if cfg.savepointOk = false then
    (Ev.setSavepoint cfg.spName false :: rollback cfg.spName 0 msgRestoreFailed, db, none)
  else if importToExistingTable = false ∧ cfg.createOk = false then
    (Ev.setSavepoint cfg.spName true :: Ev.createTable tableName false ::
      rollback cfg.spName 0 msgCreateFailed, db, none)
  else
    importRunFinish cfg db
      (if importToExistingTable then [] else [Ev.createTable tableName true])
      (importRowLoop cfg tableName importToExistingTable nullValues
        fieldList.length rows 0 0
        (if importToExistingTable then db else db.createTable tableName fieldList))

/-- `ImportCsvDialog::importCsv` (lines 382-546) on already-parsed rows: infer
the field list (empty ⇒ return with no effect); when an object of the target
name exists, fail with the column-count warning on a size mismatch, otherwise
proceed only if the user confirms appending, with the null-value policy derived
from the existing columns; when no object exists, proceed creating a new table. -/
def importCsv (cfg : RunConfig) (tableName : String) (db : DBState)
    (rows : List (List String)) : List Ev × DBState × Option ParserResult :=
  let fieldList := generateFieldList cfg.useHeader rows
  if fieldList.length = 0 then ([], db, none)
  else
    match db.getObject tableName with
    | some tbl =>
        if tbl.cols.length ≠ fieldList.length then ([Ev.warnMismatch], db, none)
        else if cfg.userConfirms then
          importRun cfg tableName db rows fieldList true (deriveNullValues tbl.cols)
        else ([], db, none)
    | none => importRun cfg tableName db rows fieldList false []

/-! ### Header matcher -/

theorem matchingHeader_map_name (a b : List Field) :
    matchingHeader a b = true ↔ a.map Field.name = b.map Field.name := by
  induction a generalizing b with
  | nil => cases b <;> simp [matchingHeader]
  | cons x xs ih =>
    cases b with
    | nil => simp [matchingHeader]
    | cons y ys =>
      by_cases h : xs.length = ys.length
      · have hh : matchingHeader (x :: xs) (y :: ys) =
            ((x.name == y.name) && matchingHeader xs ys) := by
          simp [matchingHeader, h]
        rw [hh]
        simp [ih]
      · have hmap : ¬(xs.map Field.name = ys.map Field.name) := by
          intro hc
          exact h (by simpa using congrArg List.length hc)
        simp [matchingHeader, h, hmap]

/-- **C6**: the header-compatibility check of `matchSimilar` returns true iff
the two field lists have equal length and their field names agree pairwise in
order (exact string equality); the verdict depends only on the names, never on
the field types. -/
theorem matchSimilar_compatible (a b : List Field) :
    (matchingHeader a b = true ↔
      a.length = b.length ∧
        ∀ i, (h1 : i < a.length) → (h2 : i < b.length) →
          (a.get ⟨i, h1⟩).name = (b.get ⟨i, h2⟩).name) ∧
    (∀ a2 b2 : List Field, a.map Field.name = a2.map Field.name →
      b.map Field.name = b2.map Field.name →
      matchingHeader a b = matchingHeader a2 b2) := by
  constructor
  · rw [matchingHeader_map_name, List.ext_get_iff]
    simp [List.get_map]
  · intro a2 b2 ha hb
    have h1 := matchingHeader_map_name a b
    have h2 := matchingHeader_map_name a2 b2
    rw [ha, hb, ← h2] at h1
    cases hx : matchingHeader a b <;> cases hy : matchingHeader a2 b2 <;> simp_all

theorem matchSimilar_compatible_witness :
    matchingHeader [⟨"a", "T1"⟩, ⟨"b", "T2"⟩] [⟨"a", "T3"⟩, ⟨"b", "T4"⟩] =
      matchingHeader [⟨"a", ""⟩, ⟨"b", ""⟩] [⟨"a", ""⟩, ⟨"b", ""⟩] :=
  (matchSimilar_compatible [⟨"a", "T1"⟩, ⟨"b", "T2"⟩] [⟨"a", "T3"⟩, ⟨"b", "T4"⟩]).2
    [⟨"a", ""⟩, ⟨"b", ""⟩] [⟨"a", ""⟩, ⟨"b", ""⟩] rfl rfl

/-- **C7 counterexample**: for the FieldLists `[a,b]` and `[a,c]` — equal
column count, differing names — `matchSimilar` leaves a previously checked
candidate checked; it does not mark it unchecked. -/
theorem matchSimilar_mark_cex :
    matchSimilarMark [⟨"a", ""⟩, ⟨"b", ""⟩] [⟨"a", ""⟩, ⟨"c", ""⟩] CheckState.checked =
        CheckState.checked ∧
      CheckState.checked ≠ CheckState.unchecked := by
  decide

/-- **C7 (amended)**: `matchSimilar` marks a candidate unchecked only when its
column count differs from the reference; with equal column count but a name
mismatch the candidate's check state is left unchanged, and a full match marks
it checked. -/
theorem matchSimilarMark_spec (sel hdr : List Field) (prev : CheckState) :
    (sel.length ≠ hdr.length → matchSimilarMark sel hdr prev = CheckState.unchecked) ∧
    (sel.length = hdr.length → matchingHeader sel hdr = false →
      matchSimilarMark sel hdr prev = prev) ∧
    (matchingHeader sel hdr = true → matchSimilarMark sel hdr prev = CheckState.checked) := by
  refine ⟨fun h => by simp [matchSimilarMark, h], fun h hf => ?_, fun ht => ?_⟩
  · have hz : ((List.zip sel hdr).all fun p => p.1.name == p.2.name) = false := by
      by_contra hc
      rw [Bool.not_eq_false] at hc
      have : matchingHeader sel hdr = true := by simp [matchingHeader, h, hc]
      rw [this] at hf
      cases hf
    simp [matchSimilarMark, h, hz]
  · have hlen : sel.length = hdr.length := by
      by_contra h
      simp [matchingHeader, h] at ht
    have hz : ((List.zip sel hdr).all fun p => p.1.name == p.2.name) = true := by
      simpa [matchingHeader, hlen] using ht
    simp [matchSimilarMark, hlen, hz]

theorem matchSimilarMark_spec_witness :
    matchSimilarMark [⟨"a", ""⟩] [⟨"a", ""⟩, ⟨"b", ""⟩] CheckState.checked =
        CheckState.unchecked ∧
      matchSimilarMark [⟨"a", ""⟩, ⟨"b", ""⟩] [⟨"a", ""⟩, ⟨"c", ""⟩] CheckState.unchecked =
        CheckState.unchecked :=
  ⟨(matchSimilarMark_spec [⟨"a", ""⟩] [⟨"a", ""⟩, ⟨"b", ""⟩] CheckState.checked).1 (by decide),
   (matchSimilarMark_spec [⟨"a", ""⟩, ⟨"b", ""⟩] [⟨"a", ""⟩, ⟨"c", ""⟩]
      CheckState.unchecked).2.1 (by decide) (by decide)⟩

/-! ### Null-value policy and binding -/

/-- **C4**: for an append into an existing table, the null-value policy is
derived positionally from the table's columns — integer NOT NULL ⇒ literal
"0", integer nullable ⇒ SQL NULL, anything else ⇒ empty string — and in the
row loop an empty field at a position with a policy entry is bound to the
policy value while every other field is bound as its raw text. -/
theorem nullValuePolicy_binding (cols : List Column) (nullValues : List (Option String))
    (data : List String) (i : Nat) :
    ((deriveNullValues cols)[i]? = (cols[i]?).map fun c =>
        if c.isInteger = true ∧ c.notnull = true then some "0"
        else if c.isInteger = true ∧ c.notnull = false then none
        else some "") ∧
    (data.getD i "" = "" → i < nullValues.length →
      bindValue true nullValues data i = nullValues.getD i none) ∧
    (data.getD i "" ≠ "" → bindValue true nullValues data i = some (data.getD i "")) ∧
    (nullValues.length ≤ i → bindValue true nullValues data i = some (data.getD i "")) := by
  refine ⟨?_, ?_, ?_, ?_⟩
  · simp [deriveNullValues]
  · intro h1 h2
    unfold bindValue
    rw [if_pos ⟨rfl, h1, h2⟩]
  · intro h
    unfold bindValue
    rw [if_neg fun hc => h hc.2.1]
  · intro h
    have hlt : ¬ i < nullValues.length := by omega
    unfold bindValue
    rw [if_neg fun hc => hlt hc.2.2]

theorem nullValuePolicy_binding_witness :
    bindValue true [some "0", none, some ""] ["", "x"] 0 =
        ([some "0", none, some ""] : List (Option String)).getD 0 none ∧
      bindValue true [some "0", none, some ""] ["", "x"] 1 =
        some ((["", "x"] : List String).getD 1 "") :=
  ⟨(nullValuePolicy_binding [] [some "0", none, some ""] ["", "x"] 0).2.1 rfl (by decide),
   (nullValuePolicy_binding [] [some "0", none, some ""] ["", "x"] 1).2.2.1 (by decide)⟩

/-! ### Import transaction engine -/

/-- **C5**: when an object of the target name exists whose column count
differs from the inferred field list's, `importCsv` fails fast: the only event
is the column-count warning — no savepoint, no table creation, no insert —
and the store is unchanged. -/
theorem importCsv_columnMismatch (cfg : RunConfig) (tableName : String) (db : DBState)
    (rows : List (List String)) (tbl : DBTable)
    (hobj : db.getObject tableName = some tbl)
    (hne : (generateFieldList cfg.useHeader rows).length ≠ 0)
    (hmm : tbl.cols.length ≠ (generateFieldList cfg.useHeader rows).length) :
    importCsv cfg tableName db rows = ([Ev.warnMismatch], db, none) := by
  simp only [importCsv, hobj]
  rw [if_neg hne, if_pos hmm]

theorem importCsv_columnMismatch_witness :
    importCsv ⟨false, true, "sp", true, true, fun _ => true, none⟩ "t"
        ⟨[("t", ⟨[⟨false, false⟩, ⟨false, false⟩], []⟩)]⟩ [["x"]] =
      ([Ev.warnMismatch], ⟨[("t", ⟨[⟨false, false⟩, ⟨false, false⟩], []⟩)]⟩, none) :=
  importCsv_columnMismatch ⟨false, true, "sp", true, true, fun _ => true, none⟩ "t"
    ⟨[("t", ⟨[⟨false, false⟩, ⟨false, false⟩], []⟩)]⟩ [["x"]]
    ⟨[⟨false, false⟩, ⟨false, false⟩], []⟩ (by decide) (by decide) (by decide)

/-- **C2 counterexample**: on a savepoint-creation failure (first run) and on
a table-creation failure (second run), `importCsv` does issue a
rollback-to-savepoint call on the store, contradicting the claim that these
paths never trigger one. -/
theorem importCsv_setupFailure_cex :
    Ev.revert "sp" ∈
      (importCsv ⟨false, true, "sp", false, true, fun _ => true, none⟩ "t" ⟨[]⟩ [["x"]]).1 ∧
    Ev.revert "sp" ∈
      (importCsv ⟨false, true, "sp", true, false, fun _ => true, none⟩ "t" ⟨[]⟩ [["x"]]).1 := by
  decide

/-- **C2 (amended)**: a failure while creating the savepoint, or while
creating the new table, surfaces directly with no row ever written and the
store unchanged — but in both cases the engine still issues a
rollback-to-savepoint call (after showing the warning); on the savepoint path
that call targets the savepoint that was never created and has no effect. -/
theorem importRun_setupFailure (cfg : RunConfig) (tableName : String) (db : DBState)
    (rows : List (List String)) (fieldList : List Field)
    (importToExistingTable : Bool) (nullValues : List (Option String)) :
    (cfg.savepointOk = false →
      importRun cfg tableName db rows fieldList importToExistingTable nullValues =
        ([Ev.setSavepoint cfg.spName false,
          Ev.warnUser none msgRestoreFailed, Ev.revert cfg.spName], db, none)) ∧
    (cfg.savepointOk = true → importToExistingTable = false → cfg.createOk = false →
      importRun cfg tableName db rows fieldList importToExistingTable nullValues =
        ([Ev.setSavepoint cfg.spName true, Ev.createTable tableName false,
          Ev.warnUser none msgCreateFailed, Ev.revert cfg.spName], db, none)) := by
  constructor
  · intro h
    simp only [importRun, h, if_pos rfl, rollback]
    rw [if_neg (by decide : ¬ msgRestoreFailed = "")]
    rfl
  · intro h1 h2 h3
    unfold importRun
    rw [h1, h2, h3]
    rw [if_neg (by simp)]
    rw [if_pos ⟨rfl, rfl⟩]
    unfold rollback
    rw [if_neg (by decide : ¬ msgCreateFailed = "")]
    rfl

theorem importRun_setupFailure_witness :
    importRun ⟨false, true, "sp", false, true, fun _ => true, none⟩ "t" ⟨[]⟩ [["x"]]
        [⟨"field1", ""⟩] false [] =
      ([Ev.setSavepoint "sp" false, Ev.warnUser none msgRestoreFailed, Ev.revert "sp"],
        ⟨[]⟩, none) :=
  (importRun_setupFailure ⟨false, true, "sp", false, true, fun _ => true, none⟩ "t" ⟨[]⟩
    [["x"]] [⟨"field1", ""⟩] false []).1 rfl

theorem importRowLoop_events (cfg : RunConfig) (tableName : String)
    (importToExistingTable : Bool) (nullValues : List (Option String)) (nCols : Nat) :
    ∀ (rows : List (List String)) (rowNum lastRowNum : Nat) (db : DBState) (e : Ev),
      e ∈ (importRowLoop cfg tableName importToExistingTable nullValues nCols
        rows rowNum lastRowNum db).events →
      ∃ r v ok, e = Ev.insert r v ok := by
  intro rows
  induction rows with
  | nil =>
    intro rowNum lrn db e h
    simp [importRowLoop] at h
  | cons data rest ih =>
    intro rowNum lrn db e h
    simp only [importRowLoop] at h
    split at h
    · simp at h
    · split at h
      · exact ih _ _ _ e h
      · split at h
        · simp only [List.mem_cons] at h
          rcases h with h | h
          · exact ⟨_, _, _, h⟩
          · exact ih _ _ _ e h
        · simp only [List.mem_singleton] at h
          exact ⟨_, _, _, h⟩

theorem importRowLoop_error (cfg : RunConfig) (tableName : String)
    (importToExistingTable : Bool) (nullValues : List (Option String)) (nCols : Nat) :
    ∀ (rows : List (List String)) (rowNum lastRowNum : Nat) (db : DBState),
      (importRowLoop cfg tableName importToExistingTable nullValues nCols
        rows rowNum lastRowNum db).result = ParserResult.error →
      ∃ pre v,
        (importRowLoop cfg tableName importToExistingTable nullValues nCols
          rows rowNum lastRowNum db).events =
        pre ++ [Ev.insert
          (importRowLoop cfg tableName importToExistingTable nullValues nCols
            rows rowNum lastRowNum db).lastRowNum v false] := by
  intro rows
  induction rows with
  | nil =>
    intro rowNum lrn db h
    simp [importRowLoop] at h
  | cons data rest ih =>
    intro rowNum lrn db h
    by_cases hc : cfg.cancelAt = some rowNum
    · simp [importRowLoop, hc] at h
    · by_cases hh : rowNum = 0 ∧ cfg.useHeader = true
      · simp only [importRowLoop, if_neg hc, if_pos hh] at h ⊢
        exact ih _ _ _ h
      · by_cases hs : cfg.stepOk rowNum = true
        · simp only [importRowLoop, if_neg hc, if_neg hh, if_pos hs] at h ⊢
          obtain ⟨pre, v, hp⟩ := ih _ _ _ h
          exact ⟨Ev.insert rowNum (bindRow importToExistingTable nullValues nCols data) true ::
            pre, v, by simp [hp]⟩
        · simp only [importRowLoop, if_neg hc, if_neg hh, if_neg hs] at h ⊢
          exact ⟨[], _, rfl⟩

theorem importCsv_run (cfg : RunConfig) (tableName : String) (db : DBState)
    (rows : List (List String)) (r : ParserResult)
    (h : (importCsv cfg tableName db rows).2.2 = some r) :
    ∃ fl imp nv, importCsv cfg tableName db rows = importRun cfg tableName db rows fl imp nv := by
  by_cases h0 : (generateFieldList cfg.useHeader rows).length = 0
  · simp [importCsv, h0] at h
  · match hobj : db.getObject tableName with
    | some tbl =>
      by_cases hmm : tbl.cols.length ≠ (generateFieldList cfg.useHeader rows).length
      · simp [importCsv, h0, hobj, hmm] at h
      · by_cases hu : cfg.userConfirms = true
        · refine ⟨generateFieldList cfg.useHeader rows, true, deriveNullValues tbl.cols, ?_⟩
          simp [importCsv, h0, hobj, hmm, hu]
        · simp [importCsv, h0, hobj, hmm, hu] at h
    | none =>
      refine ⟨generateFieldList cfg.useHeader rows, false, [], ?_⟩
      simp [importCsv, h0, hobj]

theorem importRunFinish_cancelled (cfg : RunConfig) (db : DBState) (createEvs : List Ev)
    (out : LoopOut)
    (hoe : ∀ e ∈ out.events, ∃ r v ok, e = Ev.insert r v ok)
    (hce : ∀ rec msg, Ev.warnUser rec msg ∉ createEvs)
    (h : (importRunFinish cfg db createEvs out).2.2 = some ParserResult.cancelled) :
    (importRunFinish cfg db createEvs out).2.1 = db ∧
    (∃ pre, (importRunFinish cfg db createEvs out).1 = pre ++ [Ev.revert cfg.spName]) ∧
    ∀ rec msg, Ev.warnUser rec msg ∉ (importRunFinish cfg db createEvs out).1 := by
  match hres : out.result with
  | ParserResult.success => simp [importRunFinish, hres] at h
  | ParserResult.error => simp [importRunFinish, hres] at h
  | ParserResult.cancelled =>
    simp only [importRunFinish, hres]
    refine ⟨by trivial, ?_, ?_⟩
    · refine ⟨Ev.setSavepoint cfg.spName true :: (createEvs ++ out.events), ?_⟩
      simp [rollback]
    · intro rec msg hmem
      simp only [rollback] at hmem
      simp [List.mem_cons, List.mem_append] at hmem
      rcases hmem with hmem | hmem
      · exact hce rec msg hmem
      · obtain ⟨r, v, ok, he⟩ := hoe _ hmem
        cases he

theorem importRunFinish_error (cfg : RunConfig) (db : DBState) (createEvs : List Ev)
    (out : LoopOut)
    (hee : out.result = ParserResult.error →
      ∃ pre v, out.events = pre ++ [Ev.insert out.lastRowNum v false])
    (h : (importRunFinish cfg db createEvs out).2.2 = some ParserResult.error) :
    ∃ pre r vals,
      (importRunFinish cfg db createEvs out).1 =
        pre ++ [Ev.insert r vals false,
          Ev.warnUser (if r = 0 then none else some r) msgInsertFailed,
          Ev.revert cfg.spName] ∧
      (importRunFinish cfg db createEvs out).2.1 = db := by
  match hres : out.result with
  | ParserResult.success => simp [importRunFinish, hres] at h
  | ParserResult.cancelled => simp [importRunFinish, hres] at h
  | ParserResult.error =>
    simp only [importRunFinish, hres]
    obtain ⟨pre, v, hp⟩ := hee hres
    refine ⟨Ev.setSavepoint cfg.spName true :: (createEvs ++ pre), out.lastRowNum, v, ?_,
      by trivial⟩
    simp only [hp, rollback]
    rw [if_neg (by decide : ¬ msgInsertFailed = "")]
    simp

theorem importRun_cancelled (cfg : RunConfig) (tableName : String) (db : DBState)
    (rows : List (List String)) (fl : List Field) (imp : Bool) (nv : List (Option String))
    (h : (importRun cfg tableName db rows fl imp nv).2.2 = some ParserResult.cancelled) :
    (importRun cfg tableName db rows fl imp nv).2.1 = db ∧
    (∃ pre, (importRun cfg tableName db rows fl imp nv).1 = pre ++ [Ev.revert cfg.spName]) ∧
    ∀ rec msg, Ev.warnUser rec msg ∉ (importRun cfg tableName db rows fl imp nv).1 := by
  by_cases h1 : cfg.savepointOk = false
  · simp [importRun, h1] at h
  · by_cases h2 : imp = false ∧ cfg.createOk = false
    · simp only [importRun, if_neg h1, if_pos h2, Prod.snd] at h
      cases h
    · unfold importRun at h ⊢
      rw [if_neg h1, if_neg h2] at h ⊢
      refine importRunFinish_cancelled cfg db _ _ ?_ ?_ h
      · intro e he
        exact importRowLoop_events cfg tableName imp nv fl.length rows 0 0 _ e he
      · intro rec msg hm
        split at hm
        · cases hm
        · simp only [List.mem_singleton] at hm
          cases hm

theorem importRun_error (cfg : RunConfig) (tableName : String) (db : DBState)
    (rows : List (List String)) (fl : List Field) (imp : Bool) (nv : List (Option String))
    (h : (importRun cfg tableName db rows fl imp nv).2.2 = some ParserResult.error) :
    ∃ pre r vals,
      (importRun cfg tableName db rows fl imp nv).1 =
        pre ++ [Ev.insert r vals false,
          Ev.warnUser (if r = 0 then none else some r) msgInsertFailed,
          Ev.revert cfg.spName] ∧
      (importRun cfg tableName db rows fl imp nv).2.1 = db := by
  by_cases h1 : cfg.savepointOk = false
  · simp [importRun, h1] at h
  · by_cases h2 : imp = false ∧ cfg.createOk = false
    · simp only [importRun, if_neg h1, if_pos h2, Prod.snd] at h
      cases h
    · unfold importRun at h ⊢
      rw [if_neg h1, if_neg h2] at h ⊢
      refine importRunFinish_error cfg db _ _ ?_ h
      intro hres
      exact importRowLoop_error cfg tableName imp nv fl.length rows 0 0 _ hres

/-- **C3**: a run the user cancels through the progress sink rolls back to the
run's savepoint, surfaces no warning at all, and leaves the store exactly in
its pre-import state. -/
theorem importCsv_cancelled (cfg : RunConfig) (tableName : String) (db : DBState)
    (rows : List (List String))
    (h : (importCsv cfg tableName db rows).2.2 = some ParserResult.cancelled) :
    (importCsv cfg tableName db rows).2.1 = db ∧
    (∃ pre, (importCsv cfg tableName db rows).1 = pre ++ [Ev.revert cfg.spName]) ∧
    ∀ rec msg, Ev.warnUser rec msg ∉ (importCsv cfg tableName db rows).1 := by
  obtain ⟨fl, imp, nv, heq⟩ := importCsv_run cfg tableName db rows ParserResult.cancelled h
  rw [heq] at h ⊢
  exact importRun_cancelled cfg tableName db rows fl imp nv h

theorem importCsv_cancelled_witness :
    (importCsv ⟨false, true, "sp", true, true, fun _ => true, some 1⟩ "t" ⟨[]⟩
        [["x"], ["y"]]).2.1 = (⟨[]⟩ : DBState) ∧
    (∃ pre, (importCsv ⟨false, true, "sp", true, true, fun _ => true, some 1⟩ "t" ⟨[]⟩
        [["x"], ["y"]]).1 = pre ++ [Ev.revert "sp"]) ∧
    ∀ rec msg, Ev.warnUser rec msg ∉
      (importCsv ⟨false, true, "sp", true, true, fun _ => true, some 1⟩ "t" ⟨[]⟩
        [["x"], ["y"]]).1 :=
  importCsv_cancelled ⟨false, true, "sp", true, true, fun _ => true, some 1⟩ "t" ⟨[]⟩
    [["x"], ["y"]] (by decide)

/-- **C1 counterexample**: with no header row, an insert failing at the second
parsed row (0-based parser index 1, 1-based row number 2) is reported with
record number 1; no event of the run carries the 1-based number 2. -/
theorem importCsv_rowNumber_cex :
    (importCsv ⟨false, true, "sp", true, true, fun n => n == 0, none⟩ "t" ⟨[]⟩
        [["x"], ["y"]]).1 =
      [Ev.setSavepoint "sp" true, Ev.createTable "t" true,
        Ev.insert 0 [some "x"] true, Ev.insert 1 [some "y"] false,
        Ev.warnUser (some 1) msgInsertFailed, Ev.revert "sp"] ∧
    Ev.warnUser (some 2) msgInsertFailed ∉
      (importCsv ⟨false, true, "sp", true, true, fun n => n == 0, none⟩ "t" ⟨[]⟩
        [["x"], ["y"]]).1 := by
  decide

/-- **C1 (amended)**: when a row insert fails, the run ends with the failing
insert, a warning whose record number is the failing row's 0-based parser
index — omitted entirely when that index is 0 — and only then the
rollback-to-savepoint call; the rollback completes before the engine returns,
leaving the store in its pre-import state. -/
theorem importCsv_insertFailure (cfg : RunConfig) (tableName : String) (db : DBState)
    (rows : List (List String))
    (h : (importCsv cfg tableName db rows).2.2 = some ParserResult.error) :
    ∃ pre r vals,
      (importCsv cfg tableName db rows).1 =
        pre ++ [Ev.insert r vals false,
          Ev.warnUser (if r = 0 then none else some r) msgInsertFailed,
          Ev.revert cfg.spName] ∧
      (importCsv cfg tableName db rows).2.1 = db := by
  obtain ⟨fl, imp, nv, heq⟩ := importCsv_run cfg tableName db rows ParserResult.error h
  rw [heq] at h ⊢
  exact importRun_error cfg tableName db rows fl imp nv h

theorem importCsv_insertFailure_witness :
    ∃ pre r vals,
      (importCsv ⟨false, true, "sp", true, true, fun n => n == 0, none⟩ "t" ⟨[]⟩
          [["x"], ["y"]]).1 =
        pre ++ [Ev.insert r vals false,
          Ev.warnUser (if r = 0 then none else some r) msgInsertFailed,
          Ev.revert "sp"] ∧
      (importCsv ⟨false, true, "sp", true, true, fun n => n == 0, none⟩ "t" ⟨[]⟩
          [["x"], ["y"]]).2.1 = (⟨[]⟩ : DBState) :=
  importCsv_insertFailure ⟨false, true, "sp", true, true, fun n => n == 0, none⟩ "t" ⟨[]⟩
    [["x"], ["y"]] (by decide)

/-! ### Schema inference -/

theorem length_extendFieldList (u : Bool) (r : Nat) (fl : List Field) (d : List String) :
    (extendFieldList u r fl d).length = max fl.length d.length := by
  simp only [extendFieldList, List.length_append, List.length_map, List.length_drop,
    List.length_range]
  omega

theorem inferRows_foldl_length (u : Bool) :
    ∀ (L : List (List String)) (n : Nat) (fl : List Field),
      (inferRows u n fl L).length = (L.map List.length).foldl max fl.length := by
  intro L
  induction L with
  | nil => intro n fl; rfl
  | cons d rest ih =>
    intro n fl
    simp only [inferRows, List.map_cons, List.foldl_cons]
    rw [ih, length_extendFieldList]

theorem le_inferRows_length (u : Bool) :
    ∀ (L : List (List String)) (n : Nat) (fl : List Field),
      fl.length ≤ (inferRows u n fl L).length := by
  intro L
  induction L with
  | nil => intro n fl; exact le_rfl
  | cons d rest ih =>
    intro n fl
    calc fl.length ≤ (extendFieldList u n fl d).length := by
          rw [length_extendFieldList]; exact le_max_left _ _
      _ ≤ _ := ih _ _

theorem inferRows_append (u : Bool) :
    ∀ (L1 L2 : List (List String)) (n : Nat) (fl : List Field),
      inferRows u n fl (L1 ++ L2) =
        inferRows u (n + L1.length) (inferRows u n fl L1) L2 := by
  intro L1
  induction L1 with
  | nil => intro L2 n fl; rfl
  | cons d rest ih =>
    intro L2 n fl
    show inferRows u (n + 1) (extendFieldList u n fl d) (rest ++ L2) =
      inferRows u (n + (d :: rest).length)
        (inferRows u (n + 1) (extendFieldList u n fl d) rest) L2
    rw [ih]
    have hAB : n + 1 + rest.length = n + (d :: rest).length := by
      simp only [List.length_cons]
      omega
    rw [hAB]

/-- **C9**: during schema inference the field-list length never decreases as
rows of the sample window are consumed, and the final length is the maximum
column count over the rows of the sample window. -/
theorem generateFieldList_length (u : Bool) (rows : List (List String)) :
    (∀ k : Nat,
      (inferRows u 0 [] ((rows.take 20).take k)).length ≤
        (inferRows u 0 [] ((rows.take 20).take (k + 1))).length) ∧
    (generateFieldList u rows).length = ((rows.take 20).map List.length).foldl max 0 := by
  constructor
  · intro k
    generalize rows.take 20 = L
    rw [List.take_succ, inferRows_append]
    exact le_inferRows_length u _ _ _
  · simpa using inferRows_foldl_length u (rows.take 20) 0 []

theorem inferRows_getElem_stable (u : Bool) :
    ∀ (L : List (List String)) (n : Nat) (fl : List Field) (i : Nat), i < fl.length →
      (inferRows u n fl L)[i]? = fl[i]? := by
  intro L
  induction L with
  | nil => intro n fl i _; rfl
  | cons d rest ih =>
    intro n fl i hi
    have hlen : i < (extendFieldList u n fl d).length := by
      rw [length_extendFieldList]
      omega
    have h1 : (extendFieldList u n fl d)[i]? = fl[i]? := by
      unfold extendFieldList
      exact List.getElem?_append_left hi
    calc (inferRows u n fl (d :: rest))[i]?
        = (extendFieldList u n fl d)[i]? := ih _ _ i hlen
      _ = fl[i]? := h1

theorem extendFieldList_getElem_new (u : Bool) (r : Nat) (fl : List Field) (d : List String)
    (i : Nat) (h1 : fl.length ≤ i) (h2 : i < d.length) :
    (extendFieldList u r fl d)[i]? = some ⟨fieldNameAt u r d i, ""⟩ := by
  unfold extendFieldList
  rw [List.getElem?_append_right h1, List.getElem?_map, List.getElem?_drop,
    List.getElem?_range (by omega : fl.length + (i - fl.length) < d.length)]
  have he : fl.length + (i - fl.length) = i := by omega
  rw [he]
  rfl

theorem fieldNameAt_header (d : List String) (i : Nat) :
    fieldNameAt true 0 d i =
      if (stripInvalidChars (d.getD i "")).isEmpty then "field" ++ toString (i + 1)
      else stripInvalidChars (d.getD i "") := rfl

theorem fieldNameAt_synth (u : Bool) (r : Nat) (d : List String) (i : Nat)
    (h : ¬(r = 0 ∧ u = true)) :
    fieldNameAt u r d i = "field" ++ toString (i + 1) := by
  unfold fieldNameAt
  rw [if_neg h]
  rfl

theorem inferRows_getElem_synth (u : Bool) :
    ∀ (L : List (List String)) (n : Nat) (fl : List Field) (i : Nat),
      (u = false ∨ 1 ≤ n) → fl.length ≤ i → i < (inferRows u n fl L).length →
      ((inferRows u n fl L)[i]?).map Field.name = some ("field" ++ toString (i + 1)) := by
  intro L
  induction L with
  | nil =>
    intro n fl i _ h1 h2
    simp only [inferRows] at h2
    omega
  | cons d rest ih =>
    intro n fl i hu h1 h2
    by_cases hfl : i < (extendFieldList u n fl d).length
    · have hd : i < d.length := by
        rw [length_extendFieldList] at hfl
        omega
      have hnew := extendFieldList_getElem_new u n fl d i h1 hd
      have hstable := inferRows_getElem_stable u rest (n + 1) _ i hfl
      show ((inferRows u (n + 1) (extendFieldList u n fl d) rest)[i]?).map Field.name = _
      rw [hstable, hnew]
      have hsynth : fieldNameAt u n d i = "field" ++ toString (i + 1) := by
        apply fieldNameAt_synth
        rcases hu with h | h
        · rintro ⟨_, hc⟩
          rw [h] at hc
          cases hc
        · rintro ⟨hn, _⟩
          omega
      rw [hsynth]
      rfl
    · have h2' : i < (inferRows u (n + 1) (extendFieldList u n fl d) rest).length := h2
      exact ih (n + 1) (extendFieldList u n fl d) i (Or.inr (by omega)) (by omega) h2'

/-- **C8**: with no header row every inferred field name is the synthesized
1-based `field<N>`; with the first row as header, a column present in row 0 is
named by that row's value with the invalid characters stripped, falling back
to the synthesized name when the stripped value is empty. -/
theorem generateFieldList_names (rows : List (List String)) (i : Nat) :
    (i < (generateFieldList false rows).length →
      ((generateFieldList false rows)[i]?).map Field.name =
        some ("field" ++ toString (i + 1))) ∧
    (∀ r0 rest, rows = r0 :: rest → i < r0.length →
      ((generateFieldList true rows)[i]?).map Field.name =
        some (if (stripInvalidChars (r0.getD i "")).isEmpty
              then "field" ++ toString (i + 1)
              else stripInvalidChars (r0.getD i ""))) := by
  constructor
  · intro h
    exact inferRows_getElem_synth false _ 0 [] i (Or.inl rfl) (Nat.zero_le i) h
  · rintro r0 rest rfl hi
    have hstep : generateFieldList true (r0 :: rest) =
        inferRows true 1 (extendFieldList true 0 [] r0) (rest.take 19) := by
      rfl
    have hlen : i < (extendFieldList true 0 [] r0).length := by
      rw [length_extendFieldList]
      simpa using hi
    rw [hstep, inferRows_getElem_stable true _ 1 _ i hlen,
      extendFieldList_getElem_new true 0 [] r0 i (Nat.zero_le i) hi,
      fieldNameAt_header]
    by_cases he : (stripInvalidChars (r0.getD i "")).isEmpty
    · rw [if_pos he]
      rfl
    · rw [if_neg he]
      rfl

theorem generateFieldList_names_witness :
    ((generateFieldList false [["x"], ["y", "z"]])[1]?).map Field.name =
      some ("field" ++ toString (1 + 1)) ∧
    ((generateFieldList true [["a b", ""], ["1", "2"]])[0]?).map Field.name =
      some (if (stripInvalidChars ((["a b", ""] : List String).getD 0 "")).isEmpty
            then "field" ++ toString (0 + 1)
            else stripInvalidChars ((["a b", ""] : List String).getD 0 "")) :=
  ⟨(generateFieldList_names [["x"], ["y", "z"]] 1).1 (by decide),
   (generateFieldList_names [["a b", ""], ["1", "2"]] 0).2 ["a b", ""] [["1", "2"]]
     rfl (by decide)⟩

/-- **C10**: with the first row used as header, a column that first appears in
a later, wider row is always given the synthesized `field<N>` name — never a
value taken from that later row. -/
theorem generateFieldList_lateColumns (rows : List (List String)) (r0 : List String)
    (rest : List (List String)) (i : Nat) (h : rows = r0 :: rest) (h1 : r0.length ≤ i)
    (h2 : i < (generateFieldList true rows).length) :
    ((generateFieldList true rows)[i]?).map Field.name =
      some ("field" ++ toString (i + 1)) := by
  subst h
  have hstep : generateFieldList true (r0 :: rest) =
      inferRows true 1 (extendFieldList true 0 [] r0) (rest.take 19) := by
    rfl
  rw [hstep] at h2 ⊢
  refine inferRows_getElem_synth true _ 1 _ i (Or.inr le_rfl) ?_ h2
  rw [length_extendFieldList]
  simpa using h1

theorem generateFieldList_lateColumns_witness :
    ((generateFieldList true [["h"], ["1", "2"]])[1]?).map Field.name =
      some ("field" ++ toString (1 + 1)) :=
  generateFieldList_lateColumns [["h"], ["1", "2"]] ["h"] [["1", "2"]] 1 rfl
    (by decide) (by decide)

end CsvImport
